import Mathlib

/-!
Verification of the coco multi-agent coding assistant core:
the clarification-marker protocol (`BaseCocoAgent`), the intent
classifier (`RouterAgent.classify`), and the checkpointed turn state
machine (`CocoGraph`).  Python strings are modelled as `List Char`
(ASCII fragment: the labels, tags and whitespace the code manipulates
are ASCII).
-/

/-- The six ASCII whitespace characters recognised by Python's
`str.strip()` / `str.split()` (the code never feeds non-ASCII
whitespace to these). -/
def isPySpace (c : Char) : Bool :=
  c = ' ' || c = '\t' || c = '\n' || c = '\x0d' || c = '\x0b' || c = '\x0c'

/-- Python `str.strip()`: remove leading and trailing whitespace. -/
def pyStrip (s : List Char) : List Char :=
  ((s.dropWhile isPySpace).reverse.dropWhile isPySpace).reverse

/-- Python `str.lower()` restricted to ASCII (all strings the classifier
compares against are ASCII). -/
def pyLower (s : List Char) : List Char :=
  s.map Char.toLower

/-- Index of the first occurrence of `pat` in `s` (`str.find` /
leftmost `re.search` of a literal pattern). -/
def findFrom (pat : List Char) : List Char → Option Nat
  | [] => if pat.isPrefixOf ([] : List Char) then some 0 else none
  | c :: s => if pat.isPrefixOf (c :: s) then some 0 else (findFrom pat s).map (· + 1)

/-- Python's `pat in s` substring test. -/
def containsSub (pat s : List Char) : Bool :=
  (findFrom pat s).isSome

/-- The opening clarification tag `[CLARIFY]`. -/
def openTag : List Char := "[CLARIFY]".data

/-- The closing clarification tag `[/CLARIFY]`. -/
def closeTag : List Char := "[/CLARIFY]".data

/-- Embeds `BaseCocoAgent._extract_clarification` (agents/base.py).
The first regex `\[CLARIFY\](.*?)\[/CLARIFY\]` (DOTALL) matches at the
first `[CLARIFY]` that is followed by a `[/CLARIFY]`, the lazy group
ending at the first such closing tag; since occurrences of `[CLARIFY]`
cannot overlap, whenever the regex matches at all it matches at the
first opening tag.  The fallback regex `\[CLARIFY\](.*)` captures
everything after the first opening tag; if neither matches the
function returns `content` unchanged. -/
def extractClarification (content : List Char) : List Char :=
  match findFrom openTag content with
  | none => content
  | some i =>
      let afterOpen := content.drop (i + openTag.length)
      match findFrom closeTag afterOpen with
      | some j => pyStrip (afterOpen.take j)
      | none => pyStrip afterOpen

section FindLemmas

/-- `isPrefixOf` as an existential decomposition. -/
lemma isPrefixOf_iff_ex (pat l : List Char) :
    pat.isPrefixOf l = true ↔ ∃ t, l = pat ++ t := by
  induction pat generalizing l with
  | nil => simp [List.isPrefixOf]
  | cons a as ih =>
      cases l with
      | nil => simp [List.isPrefixOf]
      | cons b bs =>
          simp only [List.isPrefixOf, Bool.and_eq_true, beq_iff_eq, ih,
            List.cons_append, List.cons.injEq]
          constructor
          · rintro ⟨rfl, t, rfl⟩; exact ⟨t, rfl, rfl⟩
          · rintro ⟨t, rfl, rfl⟩; exact ⟨rfl, t, rfl⟩

/-- If `findFrom` fails, the pattern occurs nowhere. -/
lemma findFrom_none_forall (pat s : List Char) (hpat : pat ≠ [])
    (h : findFrom pat s = none) :
    ∀ j, pat.isPrefixOf (s.drop j) = false := by
  induction s with
  | nil =>
      intro j
      cases hp : pat.isPrefixOf (List.drop j []) with
      | false => rfl
      | true =>
          rw [List.drop_nil] at hp
          rw [isPrefixOf_iff_ex] at hp
          obtain ⟨t, ht⟩ := hp
          cases pat with
          | nil => exact absurd rfl hpat
          | cons a as => simp at ht
  | cons c s ih =>
      intro j
      unfold findFrom at h
      by_cases hc : pat.isPrefixOf (c :: s) = true
      · simp [hc] at h
      · cases j with
        | zero =>
            simpa using (Bool.eq_false_iff.mpr hc)
        | succ j =>
            simp only [hc, if_false, Bool.false_eq_true, if_neg] at h
            have h2 : findFrom pat s = none := by
              cases hf : findFrom pat s with
              | none => rfl
              | some k => rw [hf] at h; simp at h
            simpa using ih h2 j

/-- If the pattern heads `rest` and occurs nowhere earlier, `findFrom`
returns exactly the boundary position. -/
lemma findFrom_append_some (pat pre rest : List Char)
    (hocc : pat.isPrefixOf rest = true)
    (hbefore : ∀ j, j < pre.length → pat.isPrefixOf ((pre ++ rest).drop j) = false) :
    findFrom pat (pre ++ rest) = some pre.length := by
  induction pre with
  | nil =>
      cases rest with
      | nil => simpa [findFrom] using hocc
      | cons c r => simpa [findFrom] using hocc
  | cons c p ih =>
      have h0 : pat.isPrefixOf (c :: (p ++ rest)) = false := by
        have := hbefore 0 (by simp)
        simpa using this
      have ihres : findFrom pat (p ++ rest) = some p.length := by
        apply ih
        intro j hj
        have := hbefore (j + 1) (by simpa using Nat.succ_lt_succ hj)
        simpa using this
      simp [findFrom, h0, ihres]

/-- A pattern has no nontrivial self-overlap when no proper suffix of it
is also a proper prefix. -/
def NoSelfOverlap (pat : List Char) : Prop :=
  ∀ k, 0 < k → k < pat.length → pat.drop k ≠ pat.take (pat.length - k)

/-- If `pat` does not occur in `pre` and cannot self-overlap, then in
`pre ++ pat ++ tail` there is no occurrence strictly before the
boundary. -/
lemma no_occ_before (pat pre tail : List Char) (hpat : pat ≠ [])
    (hself : NoSelfOverlap pat)
    (hpre : findFrom pat pre = none) :
    ∀ j, j < pre.length → pat.isPrefixOf ((pre ++ (pat ++ tail)).drop j) = false := by
  intro j hj
  cases hp : pat.isPrefixOf ((pre ++ (pat ++ tail)).drop j) with
  | false => rfl
  | true =>
      exfalso
      have hdrop : (pre ++ (pat ++ tail)).drop j = pre.drop j ++ (pat ++ tail) := by
        rw [List.drop_append_eq_append_drop, Nat.sub_eq_zero_of_le (le_of_lt hj),
          List.drop_zero]
      rw [hdrop, isPrefixOf_iff_ex] at hp
      obtain ⟨t, ht⟩ := hp
      set a := pre.drop j with ha
      have hal : a.length = pre.length - j := by simp [ha]
      have hapos : 0 < a.length := by omega
      by_cases hc : pat.length ≤ a.length
      · -- the occurrence lies wholly inside pre
        have htake : a.take pat.length = pat := by
          have := congrArg (List.take pat.length) ht
          rw [List.take_append_eq_append_take, Nat.sub_eq_zero_of_le hc,
            List.take_zero, List.append_nil] at this
          rw [this, List.take_append_eq_append_take, Nat.sub_self, List.take_zero,
            List.append_nil, List.take_length]
        have hoccpre : pat.isPrefixOf (pre.drop j) = true := by
          rw [isPrefixOf_iff_ex]
          refine ⟨a.drop pat.length, ?_⟩
          rw [← ha]
          conv_lhs => rw [← List.take_append_drop pat.length a]
          rw [htake]
        have := findFrom_none_forall pat pre hpat hpre j
        rw [this] at hoccpre
        exact Bool.false_ne_true hoccpre
      · -- the occurrence straddles the boundary: forbidden self-overlap
        push_neg at hc
        have hsplit : pat ++ tail = pat.drop a.length ++ t := by
          have := congrArg (List.drop a.length) ht
          rw [List.drop_append_eq_append_drop, Nat.sub_self, List.drop_zero,
            List.drop_length, List.nil_append] at this
          rw [this, List.drop_append_eq_append_drop,
            Nat.sub_eq_zero_of_le (le_of_lt hc), List.drop_zero]
        have hper : pat.take (pat.length - a.length) = pat.drop a.length := by
          have hlen : (pat.drop a.length).length = pat.length - a.length := by simp
          have h2 := congrArg (List.take (pat.length - a.length)) hsplit
          have e1 : pat.length - a.length - pat.length = 0 := by omega
          rw [List.take_append_eq_append_take, e1, List.take_zero, List.append_nil,
            ← hlen, List.take_left] at h2
          rw [← hlen]
          exact h2
        exact hself a.length hapos hc hper.symm

/-- Main marker-location lemma: the first occurrence of a
non-self-overlapping pattern in `pre ++ pat ++ tail`, with `pat` absent
from `pre`, is at the boundary. -/
lemma findFrom_marker (pat pre tail : List Char) (hpat : pat ≠ [])
    (hself : NoSelfOverlap pat)
    (hpre : findFrom pat pre = none) :
    findFrom pat (pre ++ (pat ++ tail)) = some pre.length := by
  apply findFrom_append_some
  · rw [isPrefixOf_iff_ex]; exact ⟨tail, rfl⟩
  · exact no_occ_before pat pre tail hpat hself hpre

lemma openTag_noSelfOverlap : NoSelfOverlap openTag := by
  have h : ∀ k < openTag.length, 0 < k →
      openTag.drop k ≠ openTag.take (openTag.length - k) := by decide
  intro k h1 h2
  exact h k h2 h1

lemma closeTag_noSelfOverlap : NoSelfOverlap closeTag := by
  have h : ∀ k < closeTag.length, 0 < k →
      closeTag.drop k ≠ closeTag.take (closeTag.length - k) := by decide
  intro k h1 h2
  exact h k h2 h1

end FindLemmas

/-- C3: Clarification extraction is correct in the well-formed and the
truncated case: with the opening tag first occurring after `pre` and
the enclosed text `X` free of the closing tag, the extracted question
is `X` trimmed; with no closing tag at all after the opening tag, the
question is everything after the opening tag, trimmed. -/
theorem clarification_extraction_correct (pre X post : List Char)
    (hpre : findFrom openTag pre = none)
    (hX : findFrom closeTag X = none) :
    extractClarification (pre ++ openTag ++ X ++ closeTag ++ post) = pyStrip X
    ∧ extractClarification (pre ++ openTag ++ X) = pyStrip X := by
  have hopen : openTag ≠ [] := by decide
  have hclose : closeTag ≠ [] := by decide
  constructor
  · have heq : pre ++ openTag ++ X ++ closeTag ++ post
        = pre ++ (openTag ++ (X ++ (closeTag ++ post))) := by
      simp [List.append_assoc]
    rw [heq]
    have h1 : findFrom openTag (pre ++ (openTag ++ (X ++ (closeTag ++ post))))
        = some pre.length :=
      findFrom_marker openTag pre (X ++ (closeTag ++ post)) hopen
        openTag_noSelfOverlap hpre
    unfold extractClarification
    rw [h1]
    have hdrop : (pre ++ (openTag ++ (X ++ (closeTag ++ post)))).drop
        (pre.length + openTag.length) = X ++ (closeTag ++ post) := by
      rw [← List.append_assoc, List.drop_append_eq_append_drop]
      have hlen : (pre ++ openTag).length = pre.length + openTag.length := by simp
      rw [← hlen, List.drop_length, Nat.sub_self, List.drop_zero, List.nil_append]
    have h2 : findFrom closeTag (X ++ (closeTag ++ post)) = some X.length :=
      findFrom_marker closeTag X post hclose closeTag_noSelfOverlap hX
    have htake : (X ++ (closeTag ++ post)).take X.length = X := by
      rw [List.take_append_eq_append_take, Nat.sub_self, List.take_zero,
        List.append_nil, List.take_length]
    simp only [hdrop, h2, htake]
  · have heq : pre ++ openTag ++ X = pre ++ (openTag ++ X) := by
      simp [List.append_assoc]
    rw [heq]
    have h1 : findFrom openTag (pre ++ (openTag ++ X)) = some pre.length :=
      findFrom_marker openTag pre X hopen openTag_noSelfOverlap hpre
    unfold extractClarification
    rw [h1]
    have hdrop : (pre ++ (openTag ++ X)).drop (pre.length + openTag.length) = X := by
      rw [← List.append_assoc, List.drop_append_eq_append_drop]
      have hlen : (pre ++ openTag).length = pre.length + openTag.length := by simp
      rw [← hlen, List.drop_length, Nat.sub_self, List.drop_zero, List.nil_append]
    simp only [hdrop, hX]

/-- Witness for C3 on the spec's own example question. -/
theorem clarification_extraction_correct_witness :
    extractClarification ("I need info. ".data ++ openTag ++ " Which database? ".data
        ++ closeTag ++ " thanks".data) = pyStrip " Which database? ".data
    ∧ extractClarification ("I need info. ".data ++ openTag ++ " Which database? ".data)
        = pyStrip " Which database? ".data :=
  clarification_extraction_correct "I need info. ".data " Which database? ".data
    " thanks".data (by decide) (by decide)

/-! ## Agent execution (`BaseCocoAgent.run`, agents/base.py) -/

/-- LangChain message roles (AIMessage / HumanMessage / ToolMessage /
SystemMessage). -/
inductive ChatRole where
  | user
  | assistant
  | tool
  | system
deriving DecidableEq, Repr

/-- A message's `content`: a plain string, or a structured list of
content blocks (LangChain allows `str | list`). -/
inductive MsgContent where
  | text (s : List Char)
  | blocks (bs : List (List Char))
deriving DecidableEq, Repr

structure ChatMsg where
  role : ChatRole
  content : MsgContent
deriving DecidableEq, Repr

def userMsg (s : List Char) : ChatMsg := ⟨ChatRole.user, MsgContent.text s⟩

/-- `msg.content if isinstance(msg.content, str) else ""` (base.py line 105). -/
def contentStr (c : MsgContent) : List Char :=
  match c with
  | MsgContent.text s => s
  | MsgContent.blocks _ => []

/-- What the react loop produced: the collected message list, or the
exception it raised. -/
inductive LoopOutcome where
  | ok (msgs : List ChatMsg)
  | raised (e : List Char)
deriving DecidableEq, Repr

/-- The single assistant-role error message built on the exception path
of `BaseCocoAgent.run`. -/
def errorMessage (e : List Char) : ChatMsg :=
  ⟨ChatRole.assistant,
   MsgContent.text ("I encountered an error: ".data ++ e
     ++ "\n\nPlease try rephrasing your request.".data)⟩

/-- The `for msg in reversed(all_messages)` scan of `run`: stop at the
first assistant message (scanning the given, already reversed list),
check its string content for the `[CLARIFY]` tag. -/
def scanLoop : List ChatMsg → Bool × List Char
  | [] => (false, [])
  | m :: rest =>
      match m.role with
      | ChatRole.assistant =>
          let content := contentStr m.content
          if containsSub openTag content then (true, extractClarification content)
          else (false, [])
      | _ => scanLoop rest

/-- The clarification scan over the messages in emission order. -/
def scanClarification (msgs : List ChatMsg) : Bool × List Char :=
  scanLoop msgs.reverse

structure AgentResult where
  messages : List ChatMsg
  human_feedback_needed : Bool
  clarification_question : List Char
deriving DecidableEq, Repr

/-- Embeds `BaseCocoAgent.run`: on an exception from the reasoning/tool
loop, return the single error message with the flag cleared; otherwise
return the collected messages plus the clarification scan of the final
assistant message. -/
def agentRun (outcome : LoopOutcome) : AgentResult :=
  match outcome with
  | LoopOutcome.raised e =>
      { messages := [errorMessage e]
        human_feedback_needed := false
        clarification_question := [] }
  | LoopOutcome.ok allMessages =>
      let scan := scanClarification allMessages
      { messages := allMessages
        human_feedback_needed := scan.1
        clarification_question := scan.2 }

/-- The last assistant-role message of a run (the one the scan inspects). -/
def lastAssistant (msgs : List ChatMsg) : Option ChatMsg :=
  msgs.reverse.find? (fun m => m.role == ChatRole.assistant)

/-- Whether a message's (string) content contains the `[CLARIFY]` tag. -/
def hasClarifyTag (m : ChatMsg) : Bool :=
  containsSub openTag (contentStr m.content)

lemma scanLoop_eq_find (l : List ChatMsg) :
    scanLoop l =
      match l.find? (fun m => m.role == ChatRole.assistant) with
      | none => (false, [])
      | some m =>
          if hasClarifyTag m then (true, extractClarification (contentStr m.content))
          else (false, []) := by
  induction l with
  | nil => rfl
  | cons m rest ih =>
      cases hr : m.role with
      | assistant =>
          rw [List.find?_cons_of_pos _ (by simp [hr])]
          simp [scanLoop, hr, hasClarifyTag]
      | user =>
          rw [List.find?_cons_of_neg _ (by simp [hr])]
          rw [← ih]; simp [scanLoop, hr]
      | tool =>
          rw [List.find?_cons_of_neg _ (by simp [hr])]
          rw [← ih]; simp [scanLoop, hr]
      | system =>
          rw [List.find?_cons_of_neg _ (by simp [hr])]
          rw [← ih]; simp [scanLoop, hr]

lemma scanClarification_eq (msgs : List ChatMsg) :
    scanClarification msgs =
      match lastAssistant msgs with
      | none => (false, [])
      | some m =>
          if hasClarifyTag m then (true, extractClarification (contentStr m.content))
          else (false, []) := by
  unfold scanClarification lastAssistant
  exact scanLoop_eq_find msgs.reverse

/-- C4: only the final assistant message triggers clarification: the
flag is raised iff the last assistant-role message of the run contains
the marker in its (string) text, and when it is not raised the
question is empty. -/
theorem final_message_scan_only (msgs : List ChatMsg) :
    ((agentRun (LoopOutcome.ok msgs)).human_feedback_needed = true ↔
      ∃ m, lastAssistant msgs = some m ∧ hasClarifyTag m = true)
    ∧ ((agentRun (LoopOutcome.ok msgs)).human_feedback_needed = false →
        (agentRun (LoopOutcome.ok msgs)).clarification_question = []) := by
  have hr : agentRun (LoopOutcome.ok msgs)
      = { messages := msgs,
          human_feedback_needed := (scanClarification msgs).1,
          clarification_question := (scanClarification msgs).2 } := rfl
  rw [hr, scanClarification_eq msgs]
  cases hl : lastAssistant msgs with
  | none => simp
  | some m =>
      by_cases ht : hasClarifyTag m = true
      · simp [ht]
      · simp [ht]

/-- Witness for C4: a run whose final assistant message carries the
marker raises the flag, exhibited through the characterization. -/
theorem final_message_scan_only_witness :
    ∃ m, lastAssistant
        [userMsg "hi".data,
         ⟨ChatRole.assistant, MsgContent.text "Need [CLARIFY]which db?[/CLARIFY]".data⟩]
      = some m ∧ hasClarifyTag m = true :=
  (final_message_scan_only
      [userMsg "hi".data,
       ⟨ChatRole.assistant, MsgContent.text "Need [CLARIFY]which db?[/CLARIFY]".data⟩]).1.mp
    (by decide)

/-- C5: agent failure absorption: an exception in the reasoning/tool
loop yields exactly one assistant-role message describing the error,
with the clarification flag cleared and the question empty; the error
text embeds the exception text. -/
theorem agent_failure_absorbed (e : List Char) :
    agentRun (LoopOutcome.raised e)
      = { messages := [errorMessage e]
          human_feedback_needed := false
          clarification_question := [] }
    ∧ (agentRun (LoopOutcome.raised e)).messages.length = 1
    ∧ (errorMessage e).role = ChatRole.assistant
    ∧ (∃ a b, contentStr (errorMessage e).content = a ++ e ++ b) := by
  refine ⟨rfl, rfl, rfl, "I encountered an error: ".data,
    "\n\nPlease try rephrasing your request.".data, rfl⟩

/-- C10: a final assistant message whose content is structured blocks
rather than a plain string is treated as containing no marker: the
flag stays down and the question stays empty (the scan substitutes the
empty string and cannot raise). -/
theorem nonstring_content_no_marker (msgs : List ChatMsg) (bs : List (List Char))
    (h : lastAssistant msgs = some ⟨ChatRole.assistant, MsgContent.blocks bs⟩) :
    (agentRun (LoopOutcome.ok msgs)).human_feedback_needed = false
    ∧ (agentRun (LoopOutcome.ok msgs)).clarification_question = [] := by
  have hr : agentRun (LoopOutcome.ok msgs)
      = { messages := msgs,
          human_feedback_needed := (scanClarification msgs).1,
          clarification_question := (scanClarification msgs).2 } := rfl
  rw [hr, scanClarification_eq msgs, h]
  simp [hasClarifyTag, contentStr, containsSub, findFrom, openTag]

/-- Witness for C10: the marker hides inside a structured block and is
ignored. -/
theorem nonstring_content_no_marker_witness :
    (agentRun (LoopOutcome.ok
        [userMsg "hi".data,
         ⟨ChatRole.assistant,
          MsgContent.blocks ["[CLARIFY]which db?[/CLARIFY]".data]⟩])).human_feedback_needed
      = false
    ∧ (agentRun (LoopOutcome.ok
        [userMsg "hi".data,
         ⟨ChatRole.assistant,
          MsgContent.blocks ["[CLARIFY]which db?[/CLARIFY]".data]⟩])).clarification_question
      = [] :=
  nonstring_content_no_marker _ ["[CLARIFY]which db?[/CLARIFY]".data] (by decide)

/-! ## Intent classifier (`RouterAgent.classify`, agents/router.py) -/

/-- Outcome of one invocation of the classification chain
(`self._chain.invoke`): the parsed string response, or an exception. -/
inductive ModelResult where
  | ok (response : List Char)
  | raised
deriving DecidableEq, Repr

/-- The classification model as an oracle from the submitted message
window to the call's outcome. -/
def ModelOracle : Type := List ChatMsg → ModelResult

def codeLabel : List Char := "code".data
def planLabel : List Char := "plan".data
def searchLabel : List Char := "search".data
def askLabel : List Char := "ask".data
def autoLabel : List Char := "auto".data

/-- `messages[-3:] if len(messages) > 3 else messages`. -/
def recentMessages (messages : List ChatMsg) : List ChatMsg :=
  if messages.length > 3 then messages.drop (messages.length - 3) else messages

/-- First whitespace-delimited token (`str.split()[0]`), `none` when
the string is empty or all whitespace (Python raises `IndexError`,
which `classify` catches). -/
def firstToken (s : List Char) : Option (List Char) :=
  let t := s.dropWhile isPySpace
  if t.isEmpty then none else some (t.takeWhile (fun c => !(isPySpace c)))

/-- Embeds `RouterAgent.classify`: empty history short-circuits to
`ask` without calling the model; otherwise one chain call on the last
three messages, taking the first word of the stripped, lowercased
response if it is a valid label, with `ask` on any other word, on an
all-whitespace response (`IndexError` caught) and on any exception. -/
def classify (oracle : ModelOracle) (messages : List ChatMsg) : List Char :=
  if messages.isEmpty then askLabel
  else
    match oracle (recentMessages messages) with
    | ModelResult.raised => askLabel
    | ModelResult.ok result =>
        match firstToken (pyLower (pyStrip result)) with
        | none => askLabel
        | some tok =>
            if tok = codeLabel ∨ tok = planLabel ∨ tok = searchLabel ∨ tok = askLabel
            then tok else askLabel

/-- `classify` reaches `self._chain.invoke` exactly when the history is
nonempty (router.py lines 44-50). -/
def classifyInvokesModel (messages : List ChatMsg) : Bool :=
  !messages.isEmpty

/-- C6: classifier total degradation to the catch-all label: the result
is always one of the four labels; an empty history yields `ask` with
the model not invoked; a raising model call yields `ask`; a response
whose first whitespace-delimited lowercased token is not a valid label
yields `ask`. -/
theorem classify_degrades_to_ask (oracle : ModelOracle) (messages : List ChatMsg) :
    (classify oracle messages = codeLabel ∨ classify oracle messages = planLabel
      ∨ classify oracle messages = searchLabel ∨ classify oracle messages = askLabel)
    ∧ (messages = [] →
        classify oracle messages = askLabel ∧ classifyInvokesModel messages = false)
    ∧ (oracle (recentMessages messages) = ModelResult.raised →
        classify oracle messages = askLabel)
    ∧ (∀ result tok, oracle (recentMessages messages) = ModelResult.ok result →
        firstToken (pyLower (pyStrip result)) = some tok →
        tok ≠ codeLabel → tok ≠ planLabel → tok ≠ searchLabel → tok ≠ askLabel →
        classify oracle messages = askLabel) := by
  refine ⟨?_, ?_, ?_, ?_⟩
  · unfold classify
    split
    · exact Or.inr (Or.inr (Or.inr rfl))
    · split
      · exact Or.inr (Or.inr (Or.inr rfl))
      · split
        · exact Or.inr (Or.inr (Or.inr rfl))
        · split
          · tauto
          · exact Or.inr (Or.inr (Or.inr rfl))
  · intro he
    subst he
    exact ⟨rfl, rfl⟩
  · intro hraise
    unfold classify
    by_cases he : messages.isEmpty
    · simp [he]
    · simp [he, hraise]
  · intro result tok hok htok h1 h2 h3 h4
    unfold classify
    by_cases he : messages.isEmpty
    · simp [he]
    · simp [he, hok, htok, h1, h2, h3, h4]

/-- Witness for C6: a raising model call on a nonempty history returns
`ask`. -/
theorem classify_degrades_to_ask_witness :
    classify (fun _ => ModelResult.raised) [userMsg "hello".data] = askLabel :=
  (classify_degrades_to_ask (fun _ => ModelResult.raised)
    [userMsg "hello".data]).2.2.1 rfl

/-! ## Turn state machine (`CocoGraph`, graph/workflow.py, graph/state.py) -/

/-- The reserved destructive-action confirmation payload
(`{"action": str, "details": str}`). -/
structure PendingConfirmation where
  action : List Char
  details : List Char
deriving DecidableEq, Repr

/-- Embeds the `CocoState` TypedDict (graph/state.py).  `task_type`,
`working_directory` and `codebase_indexed` are `Option` because the
keys may be absent from a partial LangGraph state update
(`state.get(...)`); the remaining keys are always set by `invoke`'s
initial state. -/
structure CocoState where
  messages : List ChatMsg
  task_type : Option (List Char)
  current_agent : List Char
  context : List Char
  working_directory : Option (List Char)
  codebase_indexed : Option Bool
  human_feedback_needed : Bool
  clarification_question : List Char
  pending_confirmation : Option PendingConfirmation
  confirmation_granted : Bool
deriving DecidableEq, Repr

/-- The update dict returned by `CocoGraph._router_node`. -/
structure RouterUpdate where
  task_type : List Char
  current_agent : List Char
deriving DecidableEq, Repr

/-- Embeds `CocoGraph._router_node`: classify, then let an explicit
caller-supplied `task_type` outside `("auto", "", None)` override the
classifier's output. -/
def routerNode (oracle : ModelOracle) (s : CocoState) : RouterUpdate :=
  let classified := classify oracle s.messages
  let resolved :=
    match s.task_type with
    | none => classified
    | some t => if t = autoLabel ∨ t = [] then classified else t
  ⟨resolved, "router".data⟩

/-- `_router_node` calls `RouterAgent.classify` on the full message
history unconditionally, before the explicit-override check
(workflow.py line 106), so the classifier model is consulted exactly
when `classify` consults it. -/
def routerNodeInvokesModel (s : CocoState) : Bool :=
  classifyInvokesModel s.messages

/-- Spec scenario B state: input "Design my API" with explicit
override `task_type="plan"`. -/
def scenarioBState : CocoState :=
  { messages := [userMsg "Design my API".data]
    task_type := some planLabel
    current_agent := []
    context := []
    working_directory := none
    codebase_indexed := none
    human_feedback_needed := false
    clarification_question := []
    pending_confirmation := none
    confirmation_granted := false }

/-- C2 counterexample: with an explicit non-`auto` `task_type` the
claim's "the classifier model is not consulted" fails — the router
node still invokes the classifier (and hence the model, the history
being nonempty); only the classifier's output is discarded. -/
theorem explicit_override_still_invokes_model :
    scenarioBState.task_type = some planLabel
    ∧ scenarioBState.messages ≠ []
    ∧ routerNodeInvokesModel scenarioBState = true := by
  refine ⟨rfl, ?_, rfl⟩
  decide

/-- C2 (amended): an explicit caller-supplied `task_type` outside
`("auto", "", None)` overrides the classifier: the resolved task type
equals the caller's value and the router update is independent of the
model's behaviour — but the classifier is still invoked whenever the
history is nonempty. -/
theorem explicit_override_bypasses_classification (s : CocoState) (t : List Char)
    (hsome : s.task_type = some t) (hauto : t ≠ autoLabel) (hempty : t ≠ []) :
    (∀ oracle : ModelOracle, routerNode oracle s = ⟨t, "router".data⟩)
    ∧ (s.messages ≠ [] → routerNodeInvokesModel s = true) := by
  constructor
  · intro oracle
    unfold routerNode
    rw [hsome]
    simp [hauto, hempty]
  · intro hm
    unfold routerNodeInvokesModel classifyInvokesModel
    simp [hm]

/-- Witness for the amended C2 on spec scenario B: the caller's
`task_type="plan"` wins for every model behaviour, including a
classifier that would answer `ask`. -/
theorem explicit_override_bypasses_classification_witness :
    (∀ oracle : ModelOracle, routerNode oracle scenarioBState
      = ⟨planLabel, "router".data⟩)
    ∧ (scenarioBState.messages ≠ [] → routerNodeInvokesModel scenarioBState = true) :=
  explicit_override_bypasses_classification scenarioBState planLabel rfl
    (by decide) (by decide)

/-! ## Graph wiring: dispatch, agent step, human-feedback pause -/

/-- The four specialized agents, i.e. the targets of the conditional
edge out of the router node. -/
inductive AgentName where
  | code
  | plan
  | search
  | ask
deriving DecidableEq, Repr

/-- The node names under which the agents are registered. -/
def agentNodeName : AgentName → List Char
  | AgentName.code => "code_agent".data
  | AgentName.plan => "plan_agent".data
  | AgentName.search => "search_agent".data
  | AgentName.ask => "ask_agent".data

/-- The two external nondeterministic pieces of a turn: the
classification model and each agent's react loop (what
`create_react_agent.stream` produces on the given input messages, or
the exception it raises). -/
structure Oracles where
  model : ModelOracle
  agentLoop : AgentName → List ChatMsg → LoopOutcome

/-- Embeds `CocoGraph._route_decision`: dispatch on `task_type`,
defaulting to the ask agent for any unrecognized or missing value. -/
def routeDecision (s : CocoState) : AgentName :=
  let t := s.task_type.getD askLabel
  if t = codeLabel then AgentName.code
  else if t = planLabel then AgentName.plan
  else if t = searchLabel then AgentName.search
  else AgentName.ask

/-- The update dict returned by `CocoGraph._run_agent`. -/
structure AgentUpdate where
  messages : List ChatMsg
  current_agent : List Char
  human_feedback_needed : Bool
  clarification_question : List Char
deriving DecidableEq, Repr

/-- Embeds `CocoGraph._run_agent`: run the chosen agent on the current
messages and normalize its result into state fields. -/
def runAgentNode (o : Oracles) (name : AgentName) (s : CocoState) : AgentUpdate :=
  let r := agentRun (o.agentLoop name s.messages)
  ⟨r.messages, agentNodeName name, r.human_feedback_needed, r.clarification_question⟩

/-- Applying the router node's update: `task_type` and `current_agent`
are last-write-wins; no messages key, so `add_messages` merges nothing. -/
def applyRouterUpdate (s : CocoState) (u : RouterUpdate) : CocoState :=
  { s with task_type := some u.task_type, current_agent := u.current_agent }

/-- Applying an agent node's update: the `add_messages` reducer appends
the new messages; the scalar fields are last-write-wins. -/
def applyAgentUpdate (s : CocoState) (u : AgentUpdate) : CocoState :=
  { s with messages := s.messages ++ u.messages
           current_agent := u.current_agent
           human_feedback_needed := u.human_feedback_needed
           clarification_question := u.clarification_question }

/-- The label of the conditional edge after an agent node. -/
inductive FeedbackRoute where
  | needs_feedback
  | done
deriving DecidableEq, Repr

/-- Embeds `CocoGraph._check_human_feedback`. -/
def checkHumanFeedback (s : CocoState) : FeedbackRoute :=
  if s.human_feedback_needed then FeedbackRoute.needs_feedback else FeedbackRoute.done

/-- The question surfaced by `_human_feedback_node`'s `interrupt`:
`state.get("clarification_question") or "Please provide clarification."`. -/
def interruptQuestion (s : CocoState) : List Char :=
  if s.clarification_question = [] then "Please provide clarification.".data
  else s.clarification_question

/-- The update `_human_feedback_node` returns once `interrupt` comes
back with the user's answer: append one user-role message carrying the
answer and clear the clarification fields. -/
def applyResumeUpdate (s : CocoState) (answer : List Char) : CocoState :=
  { s with messages := s.messages ++ [userMsg answer]
           human_feedback_needed := false
           clarification_question := [] }

/-! ## Checkpointer and public API (`invoke` / `resume`) -/

/-- A thread's checkpoint: the latest channel state, and whether the
thread is paused at the `human_feedback_node` interrupt. -/
structure ThreadCk where
  state : CocoState
  interrupted : Bool
deriving DecidableEq, Repr

/-- The `MemorySaver` checkpoint store, per the external-collaborator
contract `save(thread_id, state)` / `load(thread_id) -> state | none`:
an association list keyed by thread id, newest entry first. -/
abbrev Store : Type := List (List Char × ThreadCk)

def saveCk (store : Store) (tid : List Char) (ck : ThreadCk) : Store :=
  (tid, ck) :: store

def loadCk (store : Store) (tid : List Char) : Option ThreadCk :=
  match store with
  | [] => none
  | (t, ck) :: rest => if t = tid then some ck else loadCk rest tid

/-- The two input shapes `CocoGraph` feeds to the compiled graph: a
fresh state dict (`invoke`) or `Command(resume=answer)` (`resume`). -/
inductive GraphInput where
  | dict (init : CocoState)
  | command (answer : List Char)

/-- What a graph call yields to the caller: a final state, a
suspension carrying the clarification question (`GraphInterrupt`), or
an error raised to the caller (resuming a thread that is not paused). -/
inductive TurnOutcome where
  | final (s : CocoState)
  | suspended (s : CocoState) (question : List Char)
  | failed
deriving DecidableEq, Repr

/-- Merging a new input dict into an existing thread's channel state:
`add_messages` appends, the always-present scalar keys are
last-write-wins, and the `Option`-encoded possibly-absent keys fall
back to the previous value. -/
def mergeInput (prev inp : CocoState) : CocoState :=
  { messages := prev.messages ++ inp.messages
    task_type := inp.task_type <|> prev.task_type
    current_agent := inp.current_agent
    context := inp.context
    working_directory := inp.working_directory <|> prev.working_directory
    codebase_indexed := inp.codebase_indexed <|> prev.codebase_indexed
    human_feedback_needed := inp.human_feedback_needed
    clarification_question := inp.clarification_question
    pending_confirmation := inp.pending_confirmation
    confirmation_granted := inp.confirmation_granted }

/-- The state a dict input starts from: the merged checkpoint when the
thread already exists, else the input itself. -/
def baseState (ck : Option ThreadCk) (init : CocoState) : CocoState :=
  match ck with
  | some c => mergeInput c.state init
  | none => init

/-- One full pass through the graph for a dict input:
START → router → (conditional) agent node. -/
def runDictTurn (o : Oracles) (st0 : CocoState) : CocoState :=
  let st1 := applyRouterUpdate st0 (routerNode o.model st0)
  applyAgentUpdate st1 (runAgentNode o (routeDecision st1) st1)

/-- Outcome of the conditional edge after the agent node: suspend at
the `human_feedback_node` interrupt (checkpointing the pre-interrupt
state), or run to END. -/
def dictOutcome (st2 : CocoState) : TurnOutcome × Option ThreadCk :=
  match checkHumanFeedback st2 with
  | FeedbackRoute.needs_feedback =>
      (TurnOutcome.suspended st2 (interruptQuestion st2), some ⟨st2, true⟩)
  | FeedbackRoute.done => (TurnOutcome.final st2, some ⟨st2, false⟩)

/-- One `self._graph.invoke(input, config)` call as a function of the
thread's own checkpoint entry: what to return, and what to write back
(`none` = nothing written, the call raised). -/
def graphStep (o : Oracles) (inp : GraphInput) (ck : Option ThreadCk) :
    TurnOutcome × Option ThreadCk :=
  match inp with
  | GraphInput.dict init => dictOutcome (runDictTurn o (baseState ck init))
  | GraphInput.command answer =>
      match ck with
      | some ⟨st, true⟩ =>
          (TurnOutcome.final (applyResumeUpdate st answer),
           some ⟨applyResumeUpdate st answer, false⟩)
      | _ => (TurnOutcome.failed, none)

/-- A compiled-graph call against the shared checkpoint store: the
store is read and written only at the caller's `thread_id`. -/
def graphInvoke (o : Oracles) (inp : GraphInput) (tid : List Char) (store : Store) :
    TurnOutcome × Store :=
  let r := graphStep o inp (loadCk store tid)
  (r.1, match r.2 with
        | some ck => saveCk store tid ck
        | none => store)

/-- Caller-supplied `state_updates` overrides for `invoke`'s initial
state (`**(state_updates or {})`). -/
structure Overrides where
  messages : Option (List ChatMsg) := none
  task_type : Option (List Char) := none
  current_agent : Option (List Char) := none
  context : Option (List Char) := none
  working_directory : Option (List Char) := none
  codebase_indexed : Option Bool := none
  human_feedback_needed : Option Bool := none
  clarification_question : Option (List Char) := none
  pending_confirmation : Option (Option PendingConfirmation) := none
  confirmation_granted : Option Bool := none

/-- The initial state dict built inside `CocoGraph.invoke`
(workflow.py lines 186-196). -/
def mkInitial (user_input : List Char) (ov : Overrides) : CocoState :=
  { messages := ov.messages.getD [userMsg user_input]
    task_type := some (ov.task_type.getD autoLabel)
    current_agent := ov.current_agent.getD []
    context := ov.context.getD []
    working_directory := ov.working_directory
    codebase_indexed := ov.codebase_indexed
    human_feedback_needed := ov.human_feedback_needed.getD false
    clarification_question := ov.clarification_question.getD []
    pending_confirmation := ov.pending_confirmation.getD none
    confirmation_granted := ov.confirmation_granted.getD false }

/-- Embeds `CocoGraph.invoke`. -/
def invoke (o : Oracles) (user_input : List Char) (tid : List Char)
    (ov : Overrides) (store : Store) : TurnOutcome × Store :=
  graphInvoke o (GraphInput.dict (mkInitial user_input ov)) tid store

/-- Embeds `CocoGraph.resume`. -/
def resume (o : Oracles) (answer : List Char) (tid : List Char) (store : Store) :
    TurnOutcome × Store :=
  graphInvoke o (GraphInput.command answer) tid store

section StoreLemmas

lemma loadCk_save_same (store : Store) (tid : List Char) (ck : ThreadCk) :
    loadCk (saveCk store tid ck) tid = some ck := by
  simp [saveCk, loadCk]

lemma loadCk_save_ne (store : Store) (tid tid2 : List Char) (ck : ThreadCk)
    (h : tid ≠ tid2) :
    loadCk (saveCk store tid ck) tid2 = loadCk store tid2 := by
  simp [saveCk, loadCk, h]

lemma checkHF_needs (s : CocoState) :
    checkHumanFeedback s = FeedbackRoute.needs_feedback ↔
      s.human_feedback_needed = true := by
  unfold checkHumanFeedback
  by_cases h : s.human_feedback_needed <;> simp [h]

lemma checkHF_done (s : CocoState) :
    checkHumanFeedback s = FeedbackRoute.done ↔
      s.human_feedback_needed = false := by
  unfold checkHumanFeedback
  by_cases h : s.human_feedback_needed <;> simp [h]

lemma interruptQuestion_ne_nil (s : CocoState) : interruptQuestion s ≠ [] := by
  unfold interruptQuestion
  by_cases h : s.clarification_question = []
  · simp [h]
  · simp only [h, if_false]
    exact h

/-- Inversion: a suspended `invoke` checkpointed exactly the suspended
state, marked interrupted, under the caller's thread id. -/
lemma invoke_suspended_inv (o : Oracles) (u : List Char) (tid : List Char)
    (ov : Overrides) (store : Store) (s : CocoState) (q : List Char) (store2 : Store)
    (h : invoke o u tid ov store = (TurnOutcome.suspended s q, store2)) :
    s.human_feedback_needed = true ∧ store2 = saveCk store tid ⟨s, true⟩ := by
  have key : invoke o u tid ov store
      = ((dictOutcome (runDictTurn o (baseState (loadCk store tid) (mkInitial u ov)))).1,
         match (dictOutcome (runDictTurn o (baseState (loadCk store tid)
             (mkInitial u ov)))).2 with
         | some ck => saveCk store tid ck
         | none => store) := rfl
  rw [key] at h
  unfold dictOutcome at h
  cases hcf : checkHumanFeedback (runDictTurn o (baseState (loadCk store tid)
      (mkInitial u ov))) with
  | needs_feedback =>
      rw [hcf] at h
      simp only [Prod.mk.injEq, TurnOutcome.suspended.injEq] at h
      obtain ⟨⟨hs, _⟩, hst⟩ := h
      subst hs
      exact ⟨(checkHF_needs _).mp hcf, hst.symm⟩
  | done =>
      rw [hcf] at h
      simp at h

end StoreLemmas

/-- C1: suspend/resume round-trip: if `invoke` suspended the thread
with a clarification question, then `resume(answer, thread_id)` on the
resulting store returns a final state whose messages are every message
present at suspension followed by exactly one new user-role message
carrying the answer, with the feedback flag cleared and the question
emptied. -/
theorem suspend_resume_roundtrip (o : Oracles) (u : List Char) (tid : List Char)
    (ov : Overrides) (store : Store) (s : CocoState) (q : List Char) (store2 : Store)
    (h : invoke o u tid ov store = (TurnOutcome.suspended s q, store2))
    (answer : List Char) :
    ∃ s2, (resume o answer tid store2).1 = TurnOutcome.final s2
      ∧ s2.messages = s.messages ++ [userMsg answer]
      ∧ s2.human_feedback_needed = false
      ∧ s2.clarification_question = [] := by
  obtain ⟨hf, hst⟩ := invoke_suspended_inv o u tid ov store s q store2 h
  refine ⟨applyResumeUpdate s answer, ?_, rfl, rfl, rfl⟩
  subst hst
  unfold resume graphInvoke graphStep
  rw [loadCk_save_same]

/-- The model oracle for the witness scenarios: always classifies `ask`. -/
def demoModel : ModelOracle := fun _ => ModelResult.ok askLabel

/-- The agent-loop oracle for the witness scenarios: one assistant
message asking for clarification. -/
def demoAgentLoop : AgentName → List ChatMsg → LoopOutcome := fun _ _ =>
  LoopOutcome.ok
    [⟨ChatRole.assistant,
      MsgContent.text "I need more info. [CLARIFY]Which database?[/CLARIFY]".data⟩]

def demoOracles : Oracles := ⟨demoModel, demoAgentLoop⟩

/-- The suspended state produced by `invoke` on "Design my API" under
`demoOracles` with a fresh thread. -/
def demoSuspState : CocoState :=
  { messages := [userMsg "Design my API".data,
                 ⟨ChatRole.assistant,
                  MsgContent.text "I need more info. [CLARIFY]Which database?[/CLARIFY]".data⟩]
    task_type := some askLabel
    current_agent := "ask_agent".data
    context := []
    working_directory := none
    codebase_indexed := none
    human_feedback_needed := true
    clarification_question := "Which database?".data
    pending_confirmation := none
    confirmation_granted := false }

def demoStore2 : Store := [("t1".data, ⟨demoSuspState, true⟩)]

/-- Witness for C1, on spec scenario C: suspend on "Which database?",
resume with "Postgres". -/
theorem suspend_resume_roundtrip_witness :
    ∃ s2, (resume demoOracles "Postgres".data "t1".data demoStore2).1
        = TurnOutcome.final s2
      ∧ s2.messages = demoSuspState.messages ++ [userMsg "Postgres".data]
      ∧ s2.human_feedback_needed = false
      ∧ s2.clarification_question = [] :=
  suspend_resume_roundtrip demoOracles "Design my API".data "t1".data {} []
    demoSuspState "Which database?".data demoStore2 (by decide) "Postgres".data

lemma graphStep_dichotomy (o : Oracles) (inp : GraphInput) (ck : Option ThreadCk) :
    match (graphStep o inp ck).1 with
    | TurnOutcome.final s => s.human_feedback_needed = false
    | TurnOutcome.suspended s q => s.human_feedback_needed = true ∧ q ≠ []
    | TurnOutcome.failed => True := by
  cases inp with
  | dict init =>
      show match (dictOutcome (runDictTurn o (baseState ck init))).1 with
        | TurnOutcome.final s => s.human_feedback_needed = false
        | TurnOutcome.suspended s q => s.human_feedback_needed = true ∧ q ≠ []
        | TurnOutcome.failed => True
      unfold dictOutcome
      cases hcf : checkHumanFeedback (runDictTurn o (baseState ck init)) with
      | needs_feedback =>
          simp only []
          exact ⟨(checkHF_needs _).mp hcf, interruptQuestion_ne_nil _⟩
      | done =>
          simp only []
          exact (checkHF_done _).mp hcf
  | command answer =>
      cases ck with
      | none => trivial
      | some c =>
          cases c with
          | mk st intr =>
              cases intr with
              | true => exact rfl
              | false => trivial

/-- C7: end-of-run dichotomy: every graph call that returns a state to
the caller ends either terminal (`human_feedback_needed` false) or
suspended (`human_feedback_needed` true, carrying a nonempty
clarification question) — never both, never neither; a call that
raises instead of returning a state (resuming a non-paused thread) is
outside the dichotomy. -/
theorem run_end_dichotomy (o : Oracles) (inp : GraphInput) (tid : List Char)
    (store : Store) :
    match (graphInvoke o inp tid store).1 with
    | TurnOutcome.final s => s.human_feedback_needed = false
    | TurnOutcome.suspended s q => s.human_feedback_needed = true ∧ q ≠ []
    | TurnOutcome.failed => True :=
  graphStep_dichotomy o inp (loadCk store tid)

/-- C8: thread isolation: a graph call under `tid1` leaves every other
thread's checkpoint entry untouched, and both its outcome and the
entry it writes under `tid1` depend only on `tid1`'s own prior entry
— so each thread's final state is as if the other threads' calls had
not occurred. -/
theorem thread_isolation (o : Oracles) (inp : GraphInput) (tid1 tid2 : List Char)
    (store : Store) (hne : tid1 ≠ tid2) :
    loadCk (graphInvoke o inp tid1 store).2 tid2 = loadCk store tid2
    ∧ ∀ store2 : Store, loadCk store tid1 = loadCk store2 tid1 →
        (graphInvoke o inp tid1 store).1 = (graphInvoke o inp tid1 store2).1
        ∧ loadCk (graphInvoke o inp tid1 store).2 tid1
          = loadCk (graphInvoke o inp tid1 store2).2 tid1 := by
  constructor
  · show loadCk (match (graphStep o inp (loadCk store tid1)).2 with
        | some ck => saveCk store tid1 ck
        | none => store) tid2 = loadCk store tid2
    cases (graphStep o inp (loadCk store tid1)).2 with
    | none => rfl
    | some ck => exact loadCk_save_ne store tid1 tid2 ck hne
  · intro store2 heq
    have e : graphStep o inp (loadCk store tid1) = graphStep o inp (loadCk store2 tid1) := by
      rw [heq]
    constructor
    · show (graphStep o inp (loadCk store tid1)).1
        = (graphStep o inp (loadCk store2 tid1)).1
      rw [e]
    · show loadCk (match (graphStep o inp (loadCk store tid1)).2 with
          | some ck => saveCk store tid1 ck
          | none => store) tid1
        = loadCk (match (graphStep o inp (loadCk store2 tid1)).2 with
          | some ck => saveCk store2 tid1 ck
          | none => store2) tid1
      rw [← e]
      cases (graphStep o inp (loadCk store tid1)).2 with
      | none => exact heq
      | some ck => rw [loadCk_save_same, loadCk_save_same]

/-- A second thread's pre-existing checkpoint, for the isolation
witness. -/
def otherThreadStore : Store :=
  [("t2".data, ⟨mkInitial "unrelated".data {}, false⟩)]

/-- Witness for C8: invoking thread `t1` against an empty store and
against a store holding only `t2`'s checkpoint gives the same outcome,
the same `t1` entry, and leaves `t2`'s entry untouched. -/
theorem thread_isolation_witness :
    loadCk (graphInvoke demoOracles (GraphInput.dict (mkInitial "hello".data {}))
        "t1".data otherThreadStore).2 "t2".data = loadCk otherThreadStore "t2".data
    ∧ ((graphInvoke demoOracles (GraphInput.dict (mkInitial "hello".data {}))
          "t1".data otherThreadStore).1
        = (graphInvoke demoOracles (GraphInput.dict (mkInitial "hello".data {}))
            "t1".data []).1
      ∧ loadCk (graphInvoke demoOracles (GraphInput.dict (mkInitial "hello".data {}))
            "t1".data otherThreadStore).2 "t1".data
        = loadCk (graphInvoke demoOracles (GraphInput.dict (mkInitial "hello".data {}))
            "t1".data []).2 "t1".data) :=
  And.intro
    (thread_isolation demoOracles (GraphInput.dict (mkInitial "hello".data {}))
      "t1".data "t2".data otherThreadStore (by decide)).1
    ((thread_isolation demoOracles (GraphInput.dict (mkInitial "hello".data {}))
      "t1".data "t2".data otherThreadStore (by decide)).2 [] (by decide))

/-- C9: frame condition on the reserved confirmation fields: no node
or edge function of the state machine reads `pending_confirmation` or
`confirmation_granted`, no update writes them, and across a full
invoke pass or a resume step the two fields keep their initial values
(the caller's override, or `None`/`False` by default). -/
theorem confirmation_fields_frame :
    (∀ (oracle : ModelOracle) (s : CocoState) (v : Option PendingConfirmation) (b : Bool),
        routerNode oracle
          { s with pending_confirmation := v, confirmation_granted := b }
        = routerNode oracle s)
    ∧ (∀ (s : CocoState) (v : Option PendingConfirmation) (b : Bool),
        routeDecision { s with pending_confirmation := v, confirmation_granted := b }
        = routeDecision s)
    ∧ (∀ (o : Oracles) (n : AgentName) (s : CocoState)
          (v : Option PendingConfirmation) (b : Bool),
        runAgentNode o n { s with pending_confirmation := v, confirmation_granted := b }
        = runAgentNode o n s)
    ∧ (∀ (s : CocoState) (v : Option PendingConfirmation) (b : Bool),
        checkHumanFeedback { s with pending_confirmation := v, confirmation_granted := b }
        = checkHumanFeedback s)
    ∧ (∀ (u : List Char) (ov : Overrides),
        (mkInitial u ov).pending_confirmation = ov.pending_confirmation.getD none
        ∧ (mkInitial u ov).confirmation_granted = ov.confirmation_granted.getD false)
    ∧ (∀ (o : Oracles) (s : CocoState),
        (runDictTurn o s).pending_confirmation = s.pending_confirmation
        ∧ (runDictTurn o s).confirmation_granted = s.confirmation_granted)
    ∧ (∀ (s : CocoState) (answer : List Char),
        (applyResumeUpdate s answer).pending_confirmation = s.pending_confirmation
        ∧ (applyResumeUpdate s answer).confirmation_granted = s.confirmation_granted) := by
  refine ⟨?_, ?_, ?_, ?_, ?_, ?_, ?_⟩
  · intro oracle s v b; rfl
  · intro s v b; rfl
  · intro o n s v b; rfl
  · intro s v b; rfl
  · intro u ov; exact ⟨rfl, rfl⟩
  · intro o s; exact ⟨rfl, rfl⟩
  · intro s answer; exact ⟨rfl, rfl⟩
